import Mathlib

/-!
Shallow embedding of the molt dirty-JSON cleaner core
(src/wasm/json/src/lib.rs, two_stage.rs, simd.rs and the shared
primitives in src/wasm/core/src/lib.rs).

The input text is modelled as a list of bytes (`List Nat`); token texts,
error messages and the reconstructed output are byte lists as well.  A
Rust `String` literal is translated with `strBytes` (all inputs used in
the theorems are ASCII, where char codes and UTF-8 bytes coincide).
Loops over byte positions are modelled by structurally recursive
functions over an explicit fuel argument; every top-level entry point
passes fuel larger than the number of iterations the Rust loop can
perform, so the fuel-exhaustion branches are unreachable.
-/

namespace Molt

/-- Char codes of a string literal (equals its UTF-8 bytes for ASCII). -/
def strBytes (s : String) : List Nat := s.data.map Char.toNat

/-- molt_core::TokenType. -/
inductive TokenType where
  | String | Number | True | False | Null
  | LeftBrace | RightBrace | LeftBracket | RightBracket
  | Colon | Comma | Identifier | EOF
deriving DecidableEq, Repr

/-- molt_core::Token (`value` is the owned text as bytes, `start`/`stop`
the byte offsets; the Rust field `end` is a Lean keyword, renamed `stop`). -/
structure Token where
  tokenType : TokenType
  value : List Nat
  start : Nat
  stop : Nat
deriving DecidableEq, Repr

/-- molt_core::ParseError (message kept as char codes). -/
structure ParseError where
  message : List Nat
  position : Nat
deriving DecidableEq, Repr

/-- molt_core::is_whitespace (' ', tab, newline, carriage return). -/
def is_whitespace (b : Nat) : Bool := b == 32 || b == 9 || b == 10 || b == 13

/-- molt_core::is_digit (ASCII digit). -/
def is_digit (b : Nat) : Bool := decide (48 ≤ b ∧ b ≤ 57)

/-- ASCII alphabetic test used by molt_core::is_identifier_start/char. -/
def isAsciiAlpha (b : Nat) : Bool :=
  decide ((65 ≤ b ∧ b ≤ 90) ∨ (97 ≤ b ∧ b ≤ 122))

/-- molt_core::is_identifier_start (ASCII alphabetic, '_' or '$'). -/
def is_identifier_start (b : Nat) : Bool := isAsciiAlpha b || b == 95 || b == 36

/-- molt_core::is_identifier_char (ASCII alphanumeric, '_' or '$'). -/
def is_identifier_char (b : Nat) : Bool :=
  isAsciiAlpha b || is_digit b || b == 95 || b == 36

/-- u8::is_ascii_hexdigit, used for hex-number digits in both tokenizers. -/
def is_ascii_hexdigit (b : Nat) : Bool :=
  is_digit b || decide ((65 ≤ b ∧ b ≤ 70) ∨ (97 ≤ b ∧ b ≤ 102))

/-- Characters the single-pass tokenizer accepts inside a regular
(non-hex) number: digits, '.', 'e', 'E', '+', '-'. -/
def isNumberChar (b : Nat) : Bool :=
  is_digit b || b == 46 || b == 101 || b == 69 || b == 43 || b == 45

/-- u8::is_ascii_whitespace (space, tab, newline, form feed, carriage
return) — the whitespace test used by the two-stage gap skipper. -/
def isAsciiWhitespace (b : Nat) : Bool :=
  b == 32 || b == 9 || b == 10 || b == 12 || b == 13

/-- Rust char::is_alphabetic restricted to the code points a single byte
can denote after `byte as char` (ASCII letters plus the Latin-1 letters
U+00AA, U+00B5, U+00BA, U+00C0-D6, U+00D8-F6, U+00F8-FF); used by the
two-stage identifier test. -/
def charIsAlphabetic (b : Nat) : Bool :=
  isAsciiAlpha b || b == 170 || b == 181 || b == 186 ||
  decide ((192 ≤ b ∧ b ≤ 214) ∨ (216 ≤ b ∧ b ≤ 246) ∨ (248 ≤ b ∧ b ≤ 255))

/-- Rust char::is_numeric restricted to single-byte code points
(ASCII digits plus U+00B2, U+00B3, U+00B9, U+00BC, U+00BD, U+00BE). -/
def charIsNumeric (b : Nat) : Bool :=
  is_digit b || b == 178 || b == 179 || b == 185 ||
  b == 188 || b == 189 || b == 190

/-- Rust char::is_alphanumeric for single-byte code points. -/
def charIsAlphanumeric (b : Nat) : Bool := charIsAlphabetic b || charIsNumeric b

/-- Decimal digits of `n`, little fuel-driven helper for `natToDecBytes`. -/
def natDecAux (input : Nat) : Nat → List Nat
  | 0 => []
  | fuel + 1 =>
    if input = 0 then []
    else natDecAux (input / 10) fuel ++ [48 + input % 10]

/-- Decimal string form of a natural number (model of u64 Display /
`to_string`), as a byte list. -/
def natToDecBytes (n : Nat) : List Nat :=
  if n = 0 then [48] else natDecAux n (n + 1)

/-- Numeric value of one ASCII hex digit. -/
def hexDigitVal (b : Nat) : Nat :=
  if b ≤ 57 then b - 48 else if b ≤ 70 then b - 55 else b - 87

/-- Value denoted by a string of hex digits (model of the accumulation
performed by u64::from_str_radix(_, 16), before its overflow check). -/
def hexVal (ds : List Nat) : Nat := ds.foldl (fun acc b => acc * 16 + hexDigitVal b) 0

/-- Byte slice input[a..b] (as in Rust slicing with byte offsets). -/
def sliceB (input : List Nat) (a b : Nat) : List Nat := (input.drop a).take (b - a)

/-- Generic "while p(byte) && pos < endPos" consumption loop: returns the
consumed bytes in order together with the stopping position.  Models the
value-building while loops of both tokenizers. -/
def consumeWhile (input : List Nat) (p : Nat → Bool) (endPos : Nat) :
    Nat → Nat → List Nat × Nat
  | 0, pos => ([], pos)
  | fuel + 1, pos =>
    if pos < endPos then
      let b := input.getD pos 0
      if p b then
        let r := consumeWhile input p endPos fuel (pos + 1)
        (b :: r.1, r.2)
      else ([], pos)
    else ([], pos)

/-- The `while pos < len && bytes[pos] != b'\n'` scan inside the
single-line-comment branch of the whitespace skippers. -/
def scanPastLine (input : List Nat) (endPos : Nat) : Nat → Nat → Nat
  | 0, pos => pos
  | fuel + 1, pos =>
    if pos < endPos then
      if input.getD pos 0 = 10 then pos else scanPastLine input endPos fuel (pos + 1)
    else pos

/-- The `while pos + 1 < len` scan looking for the closing star-slash of a
block comment; on a hit it returns the position two past the star. -/
def scanPastBlock (input : List Nat) (endPos : Nat) : Nat → Nat → Nat
  | 0, pos => pos
  | fuel + 1, pos =>
    if pos + 1 < endPos then
      if input.getD pos 0 = 42 ∧ input.getD (pos + 1) 0 = 47 then pos + 2
      else scanPastBlock input endPos fuel (pos + 1)
    else pos

/-- Loop body of molt_core::skip_whitespace_and_comments. -/
def skipWsAux (input : List Nat) : Nat → Nat → Nat
  | 0, pos => pos
  | fuel + 1, pos =>
    if pos < input.length then
      let c := input.getD pos 0
      if is_whitespace c then skipWsAux input fuel (pos + 1)
      else if c = 47 ∧ pos + 1 < input.length ∧ input.getD (pos + 1) 0 = 47 then
        skipWsAux input fuel
          (scanPastLine input input.length (input.length + 1) (pos + 2))
      else if c = 47 ∧ pos + 1 < input.length ∧ input.getD (pos + 1) 0 = 42 then
        skipWsAux input fuel
          (scanPastBlock input input.length (input.length + 1) (pos + 2))
      else pos
    else pos

/-- molt_core::skip_whitespace_and_comments. -/
def skip_whitespace_and_comments (input : List Nat) (pos : Nat) : Nat :=
  skipWsAux input (input.length + 1) pos

/-- The first-pass `while` of the string branch of lib.rs tokenize: finds
the position of the closing quote (or input end), tracking a running
`escaped` flag toggled by backslashes. -/
def scanStringEnd (input : List Nat) (quote : Nat) : Nat → Nat → Bool → Nat
  | 0, pos, _ => pos
  | fuel + 1, pos, escaped =>
    if pos < input.length then
      let ch := input.getD pos 0
      if escaped then scanStringEnd input quote fuel (pos + 1) false
      else if ch = 92 then scanStringEnd input quote fuel (pos + 1) true
      else if ch = quote then pos
      else scanStringEnd input quote fuel (pos + 1) escaped
    else pos

/-- The escape-processing loop of the string branch of lib.rs tokenize
(it pushes every char of the slice unchanged, whether escaped or not). -/
def processEscapes : Bool → List Nat → List Nat
  | _, [] => []
  | escaped, ch :: rest =>
    if escaped then ch :: processEscapes false rest
    else if ch = 92 then ch :: processEscapes true rest
    else ch :: processEscapes false rest

/-- Single-character token classification (the final `match c` of
lib.rs tokenize); `none` means the "Unexpected character" error. -/
def structTokenType (b : Nat) : Option TokenType :=
  if b = 123 then some TokenType.LeftBrace
  else if b = 125 then some TokenType.RightBrace
  else if b = 91 then some TokenType.LeftBracket
  else if b = 93 then some TokenType.RightBracket
  else if b = 58 then some TokenType.Colon
  else if b = 44 then some TokenType.Comma
  else none

/-- Number consumption of lib.rs tokenize after the first character was
handled: `value` holds the bytes pushed so far ("0" or "-", "." etc.,
empty after a skipped leading '+'), `pos` the current position, `start`
the token start.  Covers the hex branch and the regular-number branch. -/
def numberTail (input : List Nat) (start pos : Nat) (value : List Nat) :
    Except ParseError (Option (Token × Nat)) :=
  if pos < input.length ∧ value = [48] ∧ input.getD pos 0 = 120 then
    let r := consumeWhile input is_ascii_hexdigit input.length
      (input.length + 1) (pos + 1)
    if r.1 = [] then
      Except.error ⟨strBytes "Invalid hex number", start⟩
    else
      let v := if hexVal r.1 < 2 ^ 64 then natToDecBytes (hexVal r.1)
               else 48 :: 120 :: r.1
      Except.ok (some (⟨TokenType.Number, v, start, r.2⟩, r.2))
  else
    let r := consumeWhile input isNumberChar input.length (input.length + 1) pos
    Except.ok (some (⟨TokenType.Number, value ++ r.1, start, r.2⟩, r.2))

/-- One iteration of the lib.rs tokenize loop: skip whitespace/comments,
then produce the next token and the continuation position, `none` at end
of input, or a ParseError. -/
def nextToken (input : List Nat) (pos0 : Nat) :
    Except ParseError (Option (Token × Nat)) :=
  let pos := skip_whitespace_and_comments input pos0
  if pos < input.length then
    let c := input.getD pos 0
    if c = 34 ∨ c = 39 then
      let stringStart := pos + 1
      let pend := scanStringEnd input c (input.length + 1) stringStart false
      let slice := sliceB input stringStart pend
      let value := if slice.contains 92 then processEscapes false slice else slice
      Except.ok (some (⟨TokenType.String, value, pos, pend + 1⟩, pend + 1))
    else if is_digit c ∨ c = 45 ∨ c = 43 ∨ c = 46 then
      if c = 43 then
        if pos + 1 < input.length then numberTail input pos (pos + 1) []
        else Except.error ⟨strBytes "Unexpected end after +", pos + 1⟩
      else numberTail input pos (pos + 1) [c]
    else if is_identifier_start c then
      let r := consumeWhile input is_identifier_char input.length
        (input.length + 1) pos
      let tt :=
        if r.1 = strBytes "true" then TokenType.True
        else if r.1 = strBytes "false" then TokenType.False
        else if r.1 = strBytes "null" then TokenType.Null
        else TokenType.Identifier
      Except.ok (some (⟨tt, r.1, pos, r.2⟩, r.2))
    else
      match structTokenType c with
      | some tt => Except.ok (some (⟨tt, [], pos, pos + 1⟩, pos + 1))
      | none =>
        Except.error ⟨strBytes "Unexpected character: " ++ [c], pos⟩
  else Except.ok none

/-- The lib.rs tokenize loop, with the EndOfInput token appended on
normal exit. -/
def tokenizeAux (input : List Nat) : Nat → Nat → List Token →
    Except ParseError (List Token)
  | 0, _, acc =>
    Except.ok (acc ++ [⟨TokenType.EOF, [], input.length, input.length⟩])
  | fuel + 1, pos, acc =>
    match nextToken input pos with
    | Except.error e => Except.error e
    | Except.ok none =>
      Except.ok (acc ++ [⟨TokenType.EOF, [], input.length, input.length⟩])
    | Except.ok (some (t, pos')) => tokenizeAux input fuel pos' (acc ++ [t])

/-- lib.rs tokenize. -/
def tokenize (input : List Nat) : Except ParseError (List Token) :=
  tokenizeAux input (input.length + 1) 0 []

/-- The double-quote escaping pass of the String arm of reconstruct_json:
a '"' whose immediately preceding original byte is not a backslash gets a
backslash inserted before it; everything else is copied verbatim.
The first argument is the previous original byte. -/
def escapeQuotes : Option Nat → List Nat → List Nat
  | _, [] => []
  | prev, b :: rest =>
    if b = 34 ∧ prev ≠ some 92 then 92 :: 34 :: escapeQuotes (some 34) rest
    else b :: escapeQuotes (some b) rest

/-- Loop body of lib.rs reconstruct_json, with the output built so far in
`acc` (lookahead for the Comma arm reads the head of the remaining
tokens, as the Rust code reads tokens[i + 1]). -/
def reconstructAux : List Nat → List Token → List Nat
  | acc, [] => acc
  | acc, t :: rest =>
    match t.tokenType with
    | TokenType.String =>
      reconstructAux (acc ++ 34 :: (escapeQuotes none t.value ++ [34])) rest
    | TokenType.Number => reconstructAux (acc ++ t.value) rest
    | TokenType.True => reconstructAux (acc ++ strBytes "true") rest
    | TokenType.False => reconstructAux (acc ++ strBytes "false") rest
    | TokenType.Null => reconstructAux (acc ++ strBytes "null") rest
    | TokenType.Identifier =>
      reconstructAux (acc ++ 34 :: (t.value ++ [34])) rest
    | TokenType.LeftBrace => reconstructAux (acc ++ [123]) rest
    | TokenType.RightBrace =>
      reconstructAux
        ((if acc.getLast? = some 44 then acc.dropLast else acc) ++ [125]) rest
    | TokenType.LeftBracket => reconstructAux (acc ++ [91]) rest
    | TokenType.RightBracket =>
      reconstructAux
        ((if acc.getLast? = some 44 then acc.dropLast else acc) ++ [93]) rest
    | TokenType.Colon => reconstructAux (acc ++ [58]) rest
    | TokenType.Comma =>
      match rest with
      | [] => acc
      | next :: rest2 =>
        if next.tokenType = TokenType.RightBrace ∨
           next.tokenType = TokenType.RightBracket ∨
           next.tokenType = TokenType.EOF then
          reconstructAux acc (next :: rest2)
        else reconstructAux (acc ++ [44]) (next :: rest2)
    | TokenType.EOF => acc

/-- lib.rs reconstruct_json. -/
def reconstruct_json (tokens : List Token) : List Nat := reconstructAux [] tokens

/-- lib.rs clean_dirty_json_internal — the single-pass `clean` path of
the spec's external interface. -/
def clean_dirty_json_internal (input : List Nat) : Except ParseError (List Nat) :=
  (tokenize input).map reconstruct_json

/-- simd.rs is_structural_char. -/
def is_structural_char (b : Nat) : Bool :=
  b = 123 || b = 125 || b = 91 || b = 93 || b = 58 || b = 44 || b = 34 || b = 39

/-- The 16-byte chunk loaded by v128_load at offset i. -/
def chunkAt (input : List Nat) (i : Nat) : List Nat :=
  (List.range 16).map fun b => input.getD (i + b) 0

/-- simd.rs find_structural_mask: bit `bit` of the bitmask is set iff the
corresponding chunk byte equals one of the eight structural characters
(the OR of the eight i8x16_eq comparisons). -/
def find_structural_mask_bit (chunk : List Nat) (bit : Nat) : Bool :=
  let b := chunk.getD bit 0
  b = 123 || b = 125 || b = 91 || b = 93 || b = 58 || b = 44 || b = 34 || b = 39

/-- The byte-by-byte remainder loop of find_structural_positions_simd
(`while i < len`, pushing structural offsets). -/
def scalarTail (input : List Nat) (i : Nat) : List Nat :=
  (List.range' i (input.length - i)).filter fun j =>
    is_structural_char (input.getD j 0)

/-- The 16-byte-chunk loop of simd.rs find_structural_positions_simd:
for each full chunk, positions of set mask bits are appended in ascending
bit order; the remainder falls back to the scalar loop. -/
def simdLoop (input : List Nat) : Nat → Nat → List Nat
  | 0, _ => []
  | fuel + 1, i =>
    if i + 16 ≤ input.length then
      (((List.range 16).filter fun bit =>
          find_structural_mask_bit (chunkAt input i) bit).map fun bit => i + bit)
        ++ simdLoop input fuel (i + 16)
    else scalarTail input i

/-- simd.rs find_structural_positions_simd (wasm32 path). -/
def find_structural_positions_simd (input : List Nat) : List Nat :=
  simdLoop input (input.length + 1) 0

/-- simd.rs find_structural_positions_scalar. -/
def find_structural_positions_scalar (input : List Nat) : List Nat :=
  (List.range input.length).filter fun j => is_structural_char (input.getD j 0)

/-- simd.rs StructType. -/
inductive StructType where
  | BraceOpen | BraceClose | BracketOpen | BracketClose
  | Colon | Comma | Quote | SingleQuote
deriving DecidableEq, Repr

/-- simd.rs StructType::from_byte. -/
def StructType.from_byte (b : Nat) : Option StructType :=
  if b = 123 then some StructType.BraceOpen
  else if b = 125 then some StructType.BraceClose
  else if b = 91 then some StructType.BracketOpen
  else if b = 93 then some StructType.BracketClose
  else if b = 58 then some StructType.Colon
  else if b = 44 then some StructType.Comma
  else if b = 34 then some StructType.Quote
  else if b = 39 then some StructType.SingleQuote
  else none

/-- simd.rs StructuralIndex. -/
structure StructuralIndex where
  positions : List Nat
  types : List StructType
deriving DecidableEq, Repr

/-- StructuralIndex::len. -/
def StructuralIndex.len (index : StructuralIndex) : Nat := index.positions.length

/-- StructuralIndex::build. -/
def StructuralIndex.build (input : List Nat) : StructuralIndex :=
  let positions := find_structural_positions_simd input
  ⟨positions, positions.filterMap fun pos => StructType.from_byte (input.getD pos 0)⟩

/-- The backward backslash-count loop of two_stage.rs extract_string:
counts the consecutive backslashes at check_pos, check_pos-1, ... while
the position stays strictly above start_pos. -/
def countBackslashes (input : List Nat) (start_pos : Nat) : Nat → Nat
  | 0 => 0
  | check + 1 =>
    if start_pos < check + 1 ∧ input.getD (check + 1) 0 = 92 then
      countBackslashes input start_pos check + 1
    else 0

/-- The per-candidate escape update of two_stage.rs extract_string: for a
candidate entry at buffer offset `pos`, when `pos > start_pos + 1` the
flag is recomputed from the preceding byte (backslash-run parity),
otherwise the flag carried from the previous iteration is kept. -/
def escapeStep (input : List Nat) (start_pos pos : Nat) (escaped : Bool) : Bool :=
  if start_pos + 1 < pos then
    if input.getD (pos - 1) 0 = 92 then
      countBackslashes input start_pos (pos - 1) % 2 == 1
    else false
  else escaped

/-- Length of the maximal run of consecutive backslash bytes ending at
position j — the quantity named by the spec's escape-parity rule
("count the maximal run of consecutive backslashes ending at p-1"). -/
def maxBackslashRun (input : List Nat) : Nat → Nat
  | 0 => if input.getD 0 0 = 92 then 1 else 0
  | j + 1 => if input.getD (j + 1) 0 = 92 then maxBackslashRun input j + 1 else 0

/-- The candidate-scanning loop of two_stage.rs extract_string over index
entries i, i+1, ...; returns the String token and the index position just
past the closing quote, or the "Unterminated string" error. -/
def extractStringLoop (input : List Nat) (index : StructuralIndex)
    (start_pos : Nat) (quote_type : StructType) :
    Nat → Nat → Bool → Except ParseError (Token × Nat)
  | 0, _, _ => Except.error ⟨strBytes "Unterminated string", start_pos⟩
  | fuel + 1, i, escaped =>
    if i < index.len then
      let pos := index.positions.getD i 0
      let typ := index.types.getD i StructType.BraceOpen
      let escaped' := escapeStep input start_pos pos escaped
      if typ = quote_type ∧ escaped' = false then
        Except.ok
          (⟨TokenType.String, sliceB input (start_pos + 1) pos, start_pos, pos + 1⟩,
           i + 1)
      else extractStringLoop input index start_pos quote_type fuel (i + 1) escaped'
    else Except.error ⟨strBytes "Unterminated string", start_pos⟩

/-- two_stage.rs extract_string. -/
def extract_string (input : List Nat) (index : StructuralIndex)
    (start_idx : Nat) (quote_type : StructType) :
    Except ParseError (Token × Nat) :=
  let start_pos := index.positions.getD start_idx 0
  extractStringLoop input index start_pos quote_type (index.len + 1)
    (start_idx + 1) false

/-- Loop body of two_stage.rs skip_whitespace_and_comments_range. -/
def skipWsRangeAux (input : List Nat) (endPos : Nat) : Nat → Nat → Nat
  | 0, pos => pos
  | fuel + 1, pos =>
    if pos < endPos then
      let c := input.getD pos 0
      if isAsciiWhitespace c then skipWsRangeAux input endPos fuel (pos + 1)
      else if c = 47 ∧ pos + 1 < endPos ∧ input.getD (pos + 1) 0 = 47 then
        skipWsRangeAux input endPos fuel
          (scanPastLine input endPos (endPos + 1) (pos + 2))
      else if c = 47 ∧ pos + 1 < endPos ∧ input.getD (pos + 1) 0 = 42 then
        skipWsRangeAux input endPos fuel
          (scanPastBlock input endPos (endPos + 1) (pos + 2))
      else pos
    else pos

/-- two_stage.rs skip_whitespace_and_comments_range. -/
def skip_whitespace_and_comments_range (input : List Nat) (start endPos : Nat) : Nat :=
  skipWsRangeAux input endPos (endPos + 1) start

/-- Number consumption of two_stage.rs extract_value_tokens after the
first character was handled (hex branch and regular branch); returns the
pushed tokens.  `start` is the gap start used for the token offsets and
the error position. -/
def evtNumberTail (input : List Nat) (start endPos pos : Nat) (value : List Nat) :
    Except ParseError (List Token) :=
  if pos < endPos ∧ value = [48] ∧ input.getD pos 0 = 120 then
    let r := consumeWhile input is_ascii_hexdigit endPos (endPos + 1) (pos + 1)
    if r.1 = [] then
      Except.error ⟨strBytes "Invalid hex number", start⟩
    else
      let v := if hexVal r.1 < 2 ^ 64 then natToDecBytes (hexVal r.1)
               else 48 :: 120 :: r.1
      Except.ok [⟨TokenType.Number, v, start, r.2⟩]
  else
    let r := consumeWhile input isNumberChar endPos (endPos + 1) pos
    Except.ok [⟨TokenType.Number, value ++ r.1, start, r.2⟩]

/-- two_stage.rs extract_value_tokens (returns the 0 or 1 tokens pushed
into the token vector). -/
def extract_value_tokens (input : List Nat) (start endPos : Nat) :
    Except ParseError (List Token) :=
  let pos := skip_whitespace_and_comments_range input start endPos
  if pos < endPos then
    let c := input.getD pos 0
    if is_digit c ∨ c = 45 ∨ c = 43 ∨ c = 46 then
      if c = 43 then
        if pos + 1 < endPos then evtNumberTail input start endPos (pos + 1) []
        else Except.ok []
      else evtNumberTail input start endPos (pos + 1) [c]
    else if charIsAlphabetic c ∨ c = 95 ∨ c = 36 then
      let r := consumeWhile input
        (fun b => charIsAlphanumeric b || b == 95 || b == 36) endPos
        (endPos + 1) pos
      let tt :=
        if r.1 = strBytes "true" then TokenType.True
        else if r.1 = strBytes "false" then TokenType.False
        else if r.1 = strBytes "null" then TokenType.Null
        else TokenType.Identifier
      Except.ok [⟨tt, r.1, start, r.2⟩]
    else Except.ok []
  else Except.ok []

/-- Loop body of two_stage.rs extract_tokens: handle the structural entry
at index position i (strings jump past their closing quote), then
extract the value tokens from the gap between the entry's offset and the
next remaining entry's offset. -/
def extractTokensAux (input : List Nat) (index : StructuralIndex) :
    Nat → Nat → List Token → Except ParseError (List Token)
  | 0, _, acc => Except.ok acc
  | fuel + 1, i, acc =>
    if i < index.len then
      let pos := index.positions.getD i 0
      let typ := index.types.getD i StructType.BraceOpen
      let step : Except ParseError (Token × Nat) :=
        match typ with
        | StructType.Quote => extract_string input index i StructType.Quote
        | StructType.SingleQuote => extract_string input index i StructType.SingleQuote
        | StructType.BraceOpen =>
          Except.ok (⟨TokenType.LeftBrace, [], pos, pos + 1⟩, i + 1)
        | StructType.BraceClose =>
          Except.ok (⟨TokenType.RightBrace, [], pos, pos + 1⟩, i + 1)
        | StructType.BracketOpen =>
          Except.ok (⟨TokenType.LeftBracket, [], pos, pos + 1⟩, i + 1)
        | StructType.BracketClose =>
          Except.ok (⟨TokenType.RightBracket, [], pos, pos + 1⟩, i + 1)
        | StructType.Colon =>
          Except.ok (⟨TokenType.Colon, [], pos, pos + 1⟩, i + 1)
        | StructType.Comma =>
          Except.ok (⟨TokenType.Comma, [], pos, pos + 1⟩, i + 1)
      match step with
      | Except.error e => Except.error e
      | Except.ok (tok, i2) =>
        if i2 < index.len then
          let next_pos := index.positions.getD i2 0
          if pos + 1 < next_pos then
            match extract_value_tokens input (pos + 1) next_pos with
            | Except.error e => Except.error e
            | Except.ok gap =>
              extractTokensAux input index fuel i2 (acc ++ tok :: gap)
          else extractTokensAux input index fuel i2 (acc ++ [tok])
        else extractTokensAux input index fuel i2 (acc ++ [tok])
    else Except.ok acc

/-- two_stage.rs extract_tokens. -/
def extract_tokens (input : List Nat) (index : StructuralIndex) :
    Except ParseError (List Token) :=
  (extractTokensAux input index (index.len + 1) 0 []).map fun acc =>
    acc ++ [⟨TokenType.EOF, [], input.length, input.length⟩]

/-- two_stage.rs parse_two_stage. -/
def parse_two_stage (input : List Nat) : Except ParseError (List Token) :=
  extract_tokens input (StructuralIndex.build input)

/-- lib.rs clean_dirty_json_simd — the spec's `cleanAccelerated` path
(kept at the ParseError level; the wasm wrapper only converts the error
to its message). -/
def clean_dirty_json_simd (input : List Nat) : Except ParseError (List Nat) :=
  (parse_two_stage input).map reconstruct_json

/-! ### Helper lemmas: SIMD scanner vs scalar scanner -/

theorem chunkAt_getD (input : List Nat) (i bit : Nat) (h : bit < 16) :
    (chunkAt input i).getD bit 0 = input.getD (i + bit) 0 := by
  simp [chunkAt, List.getD_eq_getElem?_getD, List.getElem?_range, h]

theorem simd_chunk_filter (input : List Nat) (i : Nat) :
    (((List.range 16).filter fun bit =>
        find_structural_mask_bit (chunkAt input i) bit).map fun bit => i + bit)
    = (List.range' i 16).filter fun j => is_structural_char (input.getD j 0) := by
  have hcong : ((List.range 16).filter fun bit =>
      find_structural_mask_bit (chunkAt input i) bit)
      = (List.range 16).filter fun bit => is_structural_char (input.getD (i + bit) 0) := by
    apply List.filter_congr
    intro bit hbit
    have hb : bit < 16 := List.mem_range.mp hbit
    simp only [find_structural_mask_bit, is_structural_char]
    rw [chunkAt_getD input i bit hb]
  rw [hcong, List.range'_eq_map_range, List.filter_map]
  rfl

theorem scalarTail_split (input : List Nat) (i : Nat) (h : i + 16 ≤ input.length) :
    scalarTail input i
    = ((List.range' i 16).filter fun j => is_structural_char (input.getD j 0))
      ++ scalarTail input (i + 16) := by
  unfold scalarTail
  rw [← List.filter_append]
  have hr : List.range' i 16 ++ List.range' (i + 16) (input.length - (i + 16))
      = List.range' i (input.length - i) := by
    have := List.range'_append i 16 (input.length - (i + 16)) 1
    simp only [Nat.mul_one, Nat.one_mul] at this
    rw [show i + 16 * 1 = i + 16 by omega] at this
    rw [show (input.length - (i + 16) + 16) = input.length - i by omega] at this
    exact this
  rw [hr]

theorem simdLoop_eq_scalarTail (input : List Nat) :
    ∀ fuel i, input.length ≤ i + 16 * fuel →
      simdLoop input fuel i = scalarTail input i := by
  intro fuel
  induction fuel with
  | zero =>
    intro i hi
    simp only [Nat.mul_zero, Nat.add_zero] at hi
    simp [simdLoop, scalarTail, Nat.sub_eq_zero_of_le hi]
  | succ fuel ih =>
    intro i hi
    by_cases h : i + 16 ≤ input.length
    · simp only [simdLoop, h, if_pos]
      rw [simd_chunk_filter, scalarTail_split input i h, ih (i + 16) (by omega)]
    · simp [simdLoop, h]

/-- The lane-parallel scanner equals the scalar scanner. -/
theorem simd_eq_scalar (input : List Nat) :
    find_structural_positions_simd input = find_structural_positions_scalar input := by
  unfold find_structural_positions_simd find_structural_positions_scalar
  rw [simdLoop_eq_scalarTail input (input.length + 1) 0 (by omega)]
  unfold scalarTail
  rw [Nat.sub_zero, ← List.range_eq_range']

/-! ### Helper lemmas: consumption loops -/

theorem consumeWhile_spec (input : List Nat) (p : Nat → Bool) (endPos : Nat)
    (n : Nat) :
    ∀ fuel pos, n < fuel →
      (∀ k, k < n → pos + k < endPos ∧ p (input.getD (pos + k) 0) = true) →
      (endPos ≤ pos + n ∨ p (input.getD (pos + n) 0) = false) →
      consumeWhile input p endPos fuel pos
        = ((List.range n).map fun k => input.getD (pos + k) 0, pos + n) := by
  induction n with
  | zero =>
    intro fuel pos hf hall hterm
    match fuel, hf with
    | f + 1, _ =>
      simp only [consumeWhile, List.range_zero, List.map_nil, Nat.add_zero]
      rcases hterm with h | h
      · rw [if_neg (by omega)]
      · by_cases hp : pos < endPos
        · rw [if_pos hp]
          simp only [Nat.add_zero] at h
          rw [h]
          simp
        · rw [if_neg hp]
  | succ n ih =>
    intro fuel pos hf hall hterm
    match fuel, hf with
    | f + 1, hf =>
      have h0 := hall 0 (by omega)
      simp only [Nat.add_zero] at h0
      simp only [consumeWhile, if_pos h0.1, h0.2, if_pos]
      rw [ih f (pos + 1) (by omega)
        (fun k hk => by
          have := hall (k + 1) (by omega)
          rw [show pos + (k + 1) = pos + 1 + k by omega] at this
          exact this)
        (by
          rw [show pos + 1 + n = pos + (n + 1) by omega]
          exact hterm)]
      simp only [Prod.mk.injEq]
      refine ⟨?_, by omega⟩
      rw [List.range_succ_eq_map]
      simp only [List.map_cons, List.map_map, Nat.add_zero]
      congr 1
      apply List.map_congr_left
      intro k _
      simp only [Function.comp]
      congr 1
      omega

theorem map_range_getD (l : List Nat) :
    ∀ f : Nat → Nat, (∀ k, k < l.length → f k = l.getD k 0) →
      (List.range l.length).map f = l := by
  induction l with
  | nil => intro f _; rfl
  | cons a t ih =>
    intro f h
    rw [List.length_cons, List.range_succ_eq_map]
    simp only [List.map_cons, List.map_map]
    have h0 := h 0 (by simp only [List.length_cons]; omega)
    rw [h0]
    have ht : (List.range t.length).map (f ∘ Nat.succ) = t := by
      apply ih
      intro k hk
      exact h (k + 1) (by simp only [List.length_cons]; omega)
    rw [ht]
    rfl

theorem maxBackslashRun_zero (input : List Nat) (j : Nat)
    (h : input.getD j 0 ≠ 92) : maxBackslashRun input j = 0 := by
  cases j with
  | zero =>
    simp only [maxBackslashRun]
    rw [if_neg h]
  | succ k =>
    simp only [maxBackslashRun]
    rw [if_neg h]

theorem countBackslashes_eq_maxRun (input : List Nat) (s : Nat)
    (hs : input.getD s 0 ≠ 92) :
    ∀ j, s ≤ j → countBackslashes input s j = maxBackslashRun input j := by
  intro j
  induction j with
  | zero =>
    intro hj
    have hs0 : s = 0 := by omega
    rw [maxBackslashRun_zero input 0 (hs0 ▸ hs)]
    rfl
  | succ j ih =>
    intro hj
    by_cases hsj : s = j + 1
    · rw [maxBackslashRun_zero input (j + 1) (hsj ▸ hs)]
      simp [countBackslashes, hsj]
    · have hsle : s ≤ j := by omega
      by_cases hb : input.getD (j + 1) 0 = 92
      · simp only [countBackslashes, maxBackslashRun, hb, if_pos, and_true,
          if_pos (show s < j + 1 by omega)]
        rw [ih hsle]
      · simp only [countBackslashes, maxBackslashRun]
        rw [if_neg hb, if_neg]
        intro hcon
        exact hb hcon.2

theorem escapeStep_parity (input : List Nat) (s pos : Nat) (esc : Bool)
    (hq : input.getD s 0 ≠ 92) (hlt : s < pos)
    (hedge : pos ≤ s + 1 → esc = false) :
    escapeStep input s pos esc = (maxBackslashRun input (pos - 1) % 2 == 1) := by
  unfold escapeStep
  by_cases h : s + 1 < pos
  · rw [if_pos h]
    by_cases hb : input.getD (pos - 1) 0 = 92
    · rw [if_pos hb, countBackslashes_eq_maxRun input s hq (pos - 1) (by omega)]
    · rw [if_neg hb, maxBackslashRun_zero input (pos - 1) hb]
      rfl
  · rw [if_neg h, hedge (by omega)]
    have hps : pos - 1 = s := by omega
    rw [hps, maxBackslashRun_zero input s hq]
    rfl

theorem extractStringLoop_finds (input : List Nat) (index : StructuralIndex)
    (start_idx : Nat) (qt : StructType) (j : Nat)
    (hmono : ∀ b, b < index.positions.length → ∀ a, a < b →
        index.positions.getD a 0 < index.positions.getD b 0)
    (hq : input.getD (index.positions.getD start_idx 0) 0 ≠ 92)
    (hjlen : j < index.len)
    (hmatch : index.types.getD j StructType.BraceOpen = qt)
    (heven : maxBackslashRun input (index.positions.getD j 0 - 1) % 2 = 0) :
    ∀ fuel i esc, start_idx < i → i ≤ j → j - i < fuel →
      (∀ k, k < j → i ≤ k →
        ¬(index.types.getD k StructType.BraceOpen = qt ∧
          maxBackslashRun input (index.positions.getD k 0 - 1) % 2 = 0)) →
      (index.positions.getD i 0 ≤ index.positions.getD start_idx 0 + 1 →
        esc = false) →
      extractStringLoop input index (index.positions.getD start_idx 0) qt fuel i esc
        = Except.ok (⟨TokenType.String,
            sliceB input (index.positions.getD start_idx 0 + 1)
              (index.positions.getD j 0),
            index.positions.getD start_idx 0,
            index.positions.getD j 0 + 1⟩, j + 1) := by
  intro fuel
  induction fuel with
  | zero => intro i esc _ _ hfu _ _; omega
  | succ fuel ih =>
    intro i esc hsi hij hfu hfirst hedge
    have hlenEq : index.len = index.positions.length := rfl
    have hilen : i < index.len := by omega
    have hspos : index.positions.getD start_idx 0 < index.positions.getD i 0 :=
      hmono i hilen start_idx hsi
    have hesc : escapeStep input (index.positions.getD start_idx 0)
        (index.positions.getD i 0) esc
        = (maxBackslashRun input (index.positions.getD i 0 - 1) % 2 == 1) :=
      escapeStep_parity input _ _ esc hq hspos hedge
    by_cases hji : i = j
    · subst hji
      have hescf : escapeStep input (index.positions.getD start_idx 0)
          (index.positions.getD i 0) esc = false := by
        rw [hesc, heven]
        rfl
      simp only [extractStringLoop, if_pos hilen, hescf, hmatch, and_self, if_pos]
    · have hlt : i < j := by omega
      have hnot := hfirst i hlt (Nat.le_refl i)
      have hcond : ¬(index.types.getD i StructType.BraceOpen = qt ∧
          escapeStep input (index.positions.getD start_idx 0)
            (index.positions.getD i 0) esc = false) := by
        rw [hesc]
        intro ⟨h1, h2⟩
        apply hnot
        refine ⟨h1, ?_⟩
        rcases Nat.mod_two_eq_zero_or_one
            (maxBackslashRun input (index.positions.getD i 0 - 1)) with h | h
        · exact h
        · rw [h] at h2
          simp at h2
      simp only [extractStringLoop, if_pos hilen, if_neg hcond]
      refine ih (i + 1)
        (escapeStep input (index.positions.getD start_idx 0)
          (index.positions.getD i 0) esc)
        (by omega) (by omega) (by omega) ?_ ?_
      · intro k hk hik
        exact hfirst k hk (by omega)
      · intro hcontra
        have h2 : index.positions.getD i 0 < index.positions.getD (i + 1) 0 :=
          hmono (i + 1) (by omega) i (by omega)
        omega

/-! ### Helper lemmas: tokenizer branch behaviour -/

theorem nextToken_hex (input : List Nat) (pos : Nat) (ds : List Nat)
    (hskip : skip_whitespace_and_comments input pos = pos)
    (h0 : input.getD pos 0 = 48)
    (h1lt : pos + 1 < input.length)
    (hx : input.getD (pos + 1) 0 = 120)
    (hlen : 0 < ds.length)
    (hds : ∀ k, k < ds.length →
      pos + 2 + k < input.length ∧ input.getD (pos + 2 + k) 0 = ds.getD k 0 ∧
        is_ascii_hexdigit (ds.getD k 0) = true)
    (hterm : input.length ≤ pos + 2 + ds.length ∨
      is_ascii_hexdigit (input.getD (pos + 2 + ds.length) 0) = false) :
    nextToken input pos = Except.ok (some
      (⟨TokenType.Number,
        if hexVal ds < 2 ^ 64 then natToDecBytes (hexVal ds) else 48 :: 120 :: ds,
        pos, pos + 2 + ds.length⟩, pos + 2 + ds.length)) := by
  have hdslen : ds.length < input.length + 1 := by
    have := (hds (ds.length - 1) (by omega)).1
    omega
  have hds1 : ∀ k, k < ds.length →
      pos + 1 + 1 + k < input.length ∧
        is_ascii_hexdigit (input.getD (pos + 1 + 1 + k) 0) = true := by
    intro k hk
    have h := hds k hk
    rw [show pos + 1 + 1 + k = pos + 2 + k by omega]
    exact ⟨h.1, by rw [h.2.1]; exact h.2.2⟩
  have hterm1 : input.length ≤ pos + 1 + 1 + ds.length ∨
      is_ascii_hexdigit (input.getD (pos + 1 + 1 + ds.length) 0) = false := by
    rw [show pos + 1 + 1 + ds.length = pos + 2 + ds.length by omega]
    exact hterm
  have hmap : (List.range ds.length).map (fun k => input.getD (pos + 1 + 1 + k) 0)
      = ds := by
    apply map_range_getD
    intro k hk
    have h := hds k hk
    rw [show pos + 1 + 1 + k = pos + 2 + k by omega]
    exact h.2.1
  have hcw : consumeWhile input is_ascii_hexdigit input.length (input.length + 1)
      (pos + 1 + 1) = (ds, pos + 1 + 1 + ds.length) := by
    rw [consumeWhile_spec input is_ascii_hexdigit input.length ds.length
      (input.length + 1) (pos + 1 + 1) hdslen hds1 hterm1, hmap]
  have hne : ds ≠ [] := by
    intro hc
    rw [hc] at hlen
    simp at hlen
  simp only [nextToken]
  rw [hskip, if_pos (show pos < input.length by omega), h0,
    if_neg (show ¬(48 = 34 ∨ 48 = 39) by decide),
    if_pos (show (is_digit 48 = true ∨ 48 = 45 ∨ 48 = 43 ∨ 48 = 46) by decide),
    if_neg (show ¬(48 = 43) by decide)]
  simp only [numberTail]
  rw [if_pos (show pos + 1 < input.length ∧ True ∧
    input.getD (pos + 1) 0 = 120 from ⟨h1lt, trivial, hx⟩)]
  rw [hcw]
  simp [hne, show pos + 1 + 1 + ds.length = pos + 2 + ds.length from by omega]

theorem nextToken_invalid_hex (input : List Nat) (pos : Nat)
    (hskip : skip_whitespace_and_comments input pos = pos)
    (h0 : input.getD pos 0 = 48)
    (h1lt : pos + 1 < input.length)
    (hx : input.getD (pos + 1) 0 = 120)
    (hterm : input.length ≤ pos + 2 ∨
      is_ascii_hexdigit (input.getD (pos + 2) 0) = false) :
    nextToken input pos = Except.error ⟨strBytes "Invalid hex number", pos⟩ := by
  have hcw : consumeWhile input is_ascii_hexdigit input.length (input.length + 1)
      (pos + 1 + 1) = ([], pos + 1 + 1) := by
    have := consumeWhile_spec input is_ascii_hexdigit input.length 0
      (input.length + 1) (pos + 1 + 1) (by omega) (by intro k hk; omega)
      (by rw [show pos + 1 + 1 + 0 = pos + 2 by omega]; exact hterm)
    simpa using this
  simp only [nextToken]
  rw [hskip, if_pos (show pos < input.length by omega), h0,
    if_neg (show ¬(48 = 34 ∨ 48 = 39) by decide),
    if_pos (show (is_digit 48 = true ∨ 48 = 45 ∨ 48 = 43 ∨ 48 = 46) by decide),
    if_neg (show ¬(48 = 43) by decide)]
  simp only [numberTail]
  rw [if_pos (show pos + 1 < input.length ∧ True ∧
    input.getD (pos + 1) 0 = 120 from ⟨h1lt, trivial, hx⟩)]
  rw [hcw]
  simp

theorem nextToken_unexpected (input : List Nat) (pos b : Nat)
    (hskip : skip_whitespace_and_comments input pos = pos)
    (hlt : pos < input.length)
    (hb : input.getD pos 0 = b)
    (hq : ¬(b = 34 ∨ b = 39))
    (hnum : ¬(is_digit b = true ∨ b = 45 ∨ b = 43 ∨ b = 46))
    (hid : ¬is_identifier_start b = true)
    (hstruct : structTokenType b = none) :
    nextToken input pos
      = Except.error ⟨strBytes "Unexpected character: " ++ [b], pos⟩ := by
  simp only [nextToken]
  rw [hskip, if_pos hlt, hb, if_neg hq, if_neg hnum, if_neg hid, hstruct]

theorem evt_hex (input : List Nat) (start endPos p : Nat) (ds : List Nat)
    (hskip : skip_whitespace_and_comments_range input start endPos = p)
    (h0 : input.getD p 0 = 48)
    (h1lt : p + 1 < endPos)
    (hx : input.getD (p + 1) 0 = 120)
    (hlen : 0 < ds.length)
    (hds : ∀ k, k < ds.length →
      p + 2 + k < endPos ∧ input.getD (p + 2 + k) 0 = ds.getD k 0 ∧
        is_ascii_hexdigit (ds.getD k 0) = true)
    (hterm : endPos ≤ p + 2 + ds.length ∨
      is_ascii_hexdigit (input.getD (p + 2 + ds.length) 0) = false) :
    extract_value_tokens input start endPos = Except.ok
      [⟨TokenType.Number,
        if hexVal ds < 2 ^ 64 then natToDecBytes (hexVal ds) else 48 :: 120 :: ds,
        start, p + 2 + ds.length⟩] := by
  have hdslen : ds.length < endPos + 1 := by
    have := (hds (ds.length - 1) (by omega)).1
    omega
  have hds1 : ∀ k, k < ds.length →
      p + 1 + 1 + k < endPos ∧
        is_ascii_hexdigit (input.getD (p + 1 + 1 + k) 0) = true := by
    intro k hk
    have h := hds k hk
    rw [show p + 1 + 1 + k = p + 2 + k by omega]
    exact ⟨h.1, by rw [h.2.1]; exact h.2.2⟩
  have hterm1 : endPos ≤ p + 1 + 1 + ds.length ∨
      is_ascii_hexdigit (input.getD (p + 1 + 1 + ds.length) 0) = false := by
    rw [show p + 1 + 1 + ds.length = p + 2 + ds.length by omega]
    exact hterm
  have hmap : (List.range ds.length).map (fun k => input.getD (p + 1 + 1 + k) 0)
      = ds := by
    apply map_range_getD
    intro k hk
    have h := hds k hk
    rw [show p + 1 + 1 + k = p + 2 + k by omega]
    exact h.2.1
  have hcw : consumeWhile input is_ascii_hexdigit endPos (endPos + 1)
      (p + 1 + 1) = (ds, p + 1 + 1 + ds.length) := by
    rw [consumeWhile_spec input is_ascii_hexdigit endPos ds.length
      (endPos + 1) (p + 1 + 1) hdslen hds1 hterm1, hmap]
  have hne : ds ≠ [] := by
    intro hc
    rw [hc] at hlen
    simp at hlen
  simp only [extract_value_tokens]
  rw [hskip, if_pos (show p < endPos by omega), h0,
    if_pos (show (is_digit 48 = true ∨ 48 = 45 ∨ 48 = 43 ∨ 48 = 46) by decide),
    if_neg (show ¬(48 = 43) by decide)]
  simp only [evtNumberTail]
  rw [if_pos (show p + 1 < endPos ∧ True ∧
    input.getD (p + 1) 0 = 120 from ⟨h1lt, trivial, hx⟩)]
  rw [hcw]
  simp [hne, show p + 1 + 1 + ds.length = p + 2 + ds.length from by omega]

theorem evt_invalid_hex (input : List Nat) (start endPos p : Nat)
    (hskip : skip_whitespace_and_comments_range input start endPos = p)
    (h0 : input.getD p 0 = 48)
    (h1lt : p + 1 < endPos)
    (hx : input.getD (p + 1) 0 = 120)
    (hterm : endPos ≤ p + 2 ∨
      is_ascii_hexdigit (input.getD (p + 2) 0) = false) :
    extract_value_tokens input start endPos
      = Except.error ⟨strBytes "Invalid hex number", start⟩ := by
  have hcw : consumeWhile input is_ascii_hexdigit endPos (endPos + 1)
      (p + 1 + 1) = ([], p + 1 + 1) := by
    have := consumeWhile_spec input is_ascii_hexdigit endPos 0
      (endPos + 1) (p + 1 + 1) (by omega) (by intro k hk; omega)
      (by rw [show p + 1 + 1 + 0 = p + 2 by omega]; exact hterm)
    simpa using this
  simp only [extract_value_tokens]
  rw [hskip, if_pos (show p < endPos by omega), h0,
    if_pos (show (is_digit 48 = true ∨ 48 = 45 ∨ 48 = 43 ∨ 48 = 46) by decide),
    if_neg (show ¬(48 = 43) by decide)]
  simp only [evtNumberTail]
  rw [if_pos (show p + 1 < endPos ∧ True ∧
    input.getD (p + 1) 0 = 120 from ⟨h1lt, trivial, hx⟩)]
  rw [hcw]
  simp

/-! ### Claim theorems -/

/-- C1: the claim asserts that the single-pass path and the two-stage
path are output-equivalent on every valid dirty-JSON input.  The code
violates this: on the already strictly valid input `{"a":1}` the
single-pass path returns `{"a":1}` while the two-stage path re-lexes the
string contents as an extra Identifier token (its gap extraction starts
at the opening-quote offset plus one) and returns `{"a""a":1}`. -/
theorem c1_two_stage_not_equivalent :
    clean_dirty_json_internal (strBytes "\x7b\"a\":1\x7d")
      = Except.ok (strBytes "\x7b\"a\":1\x7d")
    ∧ clean_dirty_json_simd (strBytes "\x7b\"a\":1\x7d")
      = Except.ok (strBytes "\x7b\"a\"\"a\":1\x7d")
    ∧ strBytes "\x7b\"a\":1\x7d" ≠ strBytes "\x7b\"a\"\"a\":1\x7d" :=
  ⟨rfl, rfl, by decide⟩

/-- C2: the claim asserts that on an unterminated string both paths fail
with an unterminated-string error at the opening quote's offset.  Only
the two-stage path does (position 9, the opening quote of `"alice`); the
single-pass tokenizer has no unterminated-string check at all and
silently closes the string at end of input, returning Ok. -/
theorem c2_unterminated_string_divergence :
    clean_dirty_json_internal (strBytes "\x7b\"name\": \"alice")
      = Except.ok (strBytes "\x7b\"name\":\"alice\"")
    ∧ parse_two_stage (strBytes "\x7b\"name\": \"alice")
      = Except.error ⟨strBytes "Unterminated string", 9⟩ :=
  ⟨rfl, rfl⟩

/-- C3: for every byte buffer the lane-parallel structural scanner
returns exactly the same offset sequence as the scalar scanner, and the
empty input yields the empty sequence. -/
theorem c3_scanner_equivalence :
    (∀ input : List Nat,
      find_structural_positions_simd input = find_structural_positions_scalar input)
    ∧ find_structural_positions_simd [] = [] :=
  ⟨simd_eq_scalar, rfl⟩

/-- C4 (amended): a `0x` literal with at least one hex digit is
normalized to its decimal string form by both tokenizers provided the
hexadecimal value fits in an unsigned 64-bit integer (the original claim
omitted that bound; see the counterexample); and cleaning
`{"value": 0xFF}` over the single-pass path yields `{"value":255}`. -/
theorem c4_hex_normalization_amended :
    (∀ (input : List Nat) (pos : Nat) (ds : List Nat),
      skip_whitespace_and_comments input pos = pos →
      input.getD pos 0 = 48 →
      pos + 1 < input.length →
      input.getD (pos + 1) 0 = 120 →
      0 < ds.length →
      (∀ k, k < ds.length →
        pos + 2 + k < input.length ∧ input.getD (pos + 2 + k) 0 = ds.getD k 0 ∧
          is_ascii_hexdigit (ds.getD k 0) = true) →
      (input.length ≤ pos + 2 + ds.length ∨
        is_ascii_hexdigit (input.getD (pos + 2 + ds.length) 0) = false) →
      hexVal ds < 2 ^ 64 →
      nextToken input pos = Except.ok (some
        (⟨TokenType.Number, natToDecBytes (hexVal ds), pos, pos + 2 + ds.length⟩,
          pos + 2 + ds.length)))
    ∧ (∀ (input : List Nat) (start endPos p : Nat) (ds : List Nat),
      skip_whitespace_and_comments_range input start endPos = p →
      input.getD p 0 = 48 →
      p + 1 < endPos →
      input.getD (p + 1) 0 = 120 →
      0 < ds.length →
      (∀ k, k < ds.length →
        p + 2 + k < endPos ∧ input.getD (p + 2 + k) 0 = ds.getD k 0 ∧
          is_ascii_hexdigit (ds.getD k 0) = true) →
      (endPos ≤ p + 2 + ds.length ∨
        is_ascii_hexdigit (input.getD (p + 2 + ds.length) 0) = false) →
      hexVal ds < 2 ^ 64 →
      extract_value_tokens input start endPos = Except.ok
        [⟨TokenType.Number, natToDecBytes (hexVal ds), start, p + 2 + ds.length⟩])
    ∧ clean_dirty_json_internal (strBytes "\x7b\"value\": 0xFF\x7d")
        = Except.ok (strBytes "\x7b\"value\":255\x7d") := by
  refine ⟨?_, ?_, rfl⟩
  · intro input pos ds hskip h0 h1lt hx hlen hds hterm hsmall
    have h := nextToken_hex input pos ds hskip h0 h1lt hx hlen hds hterm
    rw [if_pos hsmall] at h
    exact h
  · intro input start endPos p ds hskip h0 h1lt hx hlen hds hterm hsmall
    have h := evt_hex input start endPos p ds hskip h0 h1lt hx hlen hds hterm
    rw [if_pos hsmall] at h
    exact h

/-- Witness for C4: both tokenizers at the concrete literal `0xFF`. -/
theorem c4_hex_normalization_witness :
    nextToken (strBytes "0xFF") 0 = Except.ok (some
      (⟨TokenType.Number, natToDecBytes (hexVal (strBytes "FF")), 0, 4⟩, 4))
    ∧ extract_value_tokens (strBytes "0xFF") 0 4 = Except.ok
      [⟨TokenType.Number, natToDecBytes (hexVal (strBytes "FF")), 0, 4⟩] :=
  ⟨c4_hex_normalization_amended.1 (strBytes "0xFF") 0 (strBytes "FF")
      (by decide) (by decide) (by decide) (by decide) (by decide) (by decide)
      (by decide) (by decide),
   c4_hex_normalization_amended.2.1 (strBytes "0xFF") 0 4 0 (strBytes "FF")
      (by decide) (by decide) (by decide) (by decide) (by decide) (by decide)
      (by decide) (by decide)⟩

/-- Counterexample for C4 as stated: a hex literal whose value exceeds
u64::MAX is not normalized to decimal — the token keeps its raw `0x…`
text (here 2^64, seventeen hex digits). -/
theorem c4_hex_overflow_counterexample :
    tokenize (strBytes "0x10000000000000000")
      = Except.ok [⟨TokenType.Number, strBytes "0x10000000000000000", 0, 19⟩,
          ⟨TokenType.EOF, [], 19, 19⟩]
    ∧ strBytes "0x10000000000000000"
      ≠ natToDecBytes (hexVal (strBytes "10000000000000000")) :=
  ⟨rfl, by decide⟩

/-- C5 (amended): a `0x` prefix followed by zero hex digits makes the
single-pass tokenizer fail with "Invalid hex number" wherever a token
starts, and makes the two-stage extractor fail likewise whenever the
literal lies inside an extracted gap; but (contrary to the original
claim) the accelerated path returns Ok when the literal lies outside
every gap, e.g. on the whole input `0x` (see the counterexample).  The
single-pass path on `0x` does return the error. -/
theorem c5_invalid_hex_amended :
    (∀ (input : List Nat) (pos : Nat),
      skip_whitespace_and_comments input pos = pos →
      pos + 1 < input.length →
      input.getD pos 0 = 48 →
      input.getD (pos + 1) 0 = 120 →
      (input.length ≤ pos + 2 ∨
        is_ascii_hexdigit (input.getD (pos + 2) 0) = false) →
      nextToken input pos = Except.error ⟨strBytes "Invalid hex number", pos⟩)
    ∧ (∀ (input : List Nat) (start endPos p : Nat),
      skip_whitespace_and_comments_range input start endPos = p →
      p + 1 < endPos →
      input.getD p 0 = 48 →
      input.getD (p + 1) 0 = 120 →
      (endPos ≤ p + 2 ∨ is_ascii_hexdigit (input.getD (p + 2) 0) = false) →
      extract_value_tokens input start endPos
        = Except.error ⟨strBytes "Invalid hex number", start⟩)
    ∧ clean_dirty_json_internal (strBytes "0x")
        = Except.error ⟨strBytes "Invalid hex number", 0⟩ := by
  refine ⟨?_, ?_, rfl⟩
  · intro input pos hskip h1lt h0 hx hterm
    exact nextToken_invalid_hex input pos hskip h0 h1lt hx hterm
  · intro input start endPos p hskip h1lt h0 hx hterm
    exact evt_invalid_hex input start endPos p hskip h0 h1lt hx hterm

/-- Witness for C5: both tokenizers at the concrete input `0x`. -/
theorem c5_invalid_hex_witness :
    nextToken (strBytes "0x") 0
      = Except.error ⟨strBytes "Invalid hex number", 0⟩
    ∧ extract_value_tokens (strBytes "0x") 0 2
      = Except.error ⟨strBytes "Invalid hex number", 0⟩ :=
  ⟨c5_invalid_hex_amended.1 (strBytes "0x") 0 (by decide) (by decide) (by decide)
      (by decide) (by decide),
   c5_invalid_hex_amended.2.1 (strBytes "0x") 0 2 0 (by decide) (by decide)
      (by decide) (by decide) (by decide)⟩

/-- Counterexample for C5 as stated: the accelerated path on the input
`0x` returns Ok with empty output instead of an "Invalid hex number"
error — the bytes before the first structural character are never
extracted by the two-stage walker. -/
theorem c5_invalid_hex_counterexample :
    clean_dirty_json_simd (strBytes "0x") = Except.ok [] := rfl

/-- C6: in the reconstructor, immediately before emitting `}` or `]` a
trailing comma in the output is removed; a Comma token is suppressed
when the next token is RightBrace, RightBracket or EndOfInput; and
cleaning `{"items": [1, 2, 3,], "total": 3,}` yields
`{"items":[1,2,3],"total":3}`. -/
theorem c6_trailing_comma_elision :
    (∀ (acc v : List Nat) (s e : Nat) (rest : List Token),
      acc.getLast? = some 44 →
      reconstructAux acc (⟨TokenType.RightBrace, v, s, e⟩ :: rest)
        = reconstructAux (acc.dropLast ++ [125]) rest)
    ∧ (∀ (acc v : List Nat) (s e : Nat) (rest : List Token),
      acc.getLast? = some 44 →
      reconstructAux acc (⟨TokenType.RightBracket, v, s, e⟩ :: rest)
        = reconstructAux (acc.dropLast ++ [93]) rest)
    ∧ (∀ (acc v : List Nat) (s e : Nat) (next : Token) (rest : List Token),
      (next.tokenType = TokenType.RightBrace ∨
        next.tokenType = TokenType.RightBracket ∨
        next.tokenType = TokenType.EOF) →
      reconstructAux acc (⟨TokenType.Comma, v, s, e⟩ :: next :: rest)
        = reconstructAux acc (next :: rest))
    ∧ clean_dirty_json_internal (strBytes "\x7b\"items\": [1, 2, 3,], \"total\": 3,\x7d")
        = Except.ok (strBytes "\x7b\"items\":[1,2,3],\"total\":3\x7d") := by
  refine ⟨?_, ?_, ?_, rfl⟩
  · intro acc v s e rest h
    simp only [reconstructAux]
    rw [if_pos h]
  · intro acc v s e rest h
    simp only [reconstructAux]
    rw [if_pos h]
  · intro acc v s e next rest h
    simp only [reconstructAux]
    rw [if_pos h]

/-- Witness for C6: the three reconstructor rules at concrete inputs. -/
theorem c6_trailing_comma_elision_witness :
    reconstructAux [123, 44] [⟨TokenType.RightBrace, [], 0, 0⟩]
      = reconstructAux ([123, 44].dropLast ++ [125]) []
    ∧ reconstructAux [91, 49, 44] [⟨TokenType.RightBracket, [], 0, 0⟩]
      = reconstructAux ([91, 49, 44].dropLast ++ [93]) []
    ∧ reconstructAux [91] [⟨TokenType.Comma, [], 0, 0⟩,
        ⟨TokenType.RightBracket, [], 0, 0⟩]
      = reconstructAux [91] [⟨TokenType.RightBracket, [], 0, 0⟩] :=
  ⟨c6_trailing_comma_elision.1 [123, 44] [] 0 0 [] (by decide),
   c6_trailing_comma_elision.2.1 [91, 49, 44] [] 0 0 [] (by decide),
   c6_trailing_comma_elision.2.2.1 [91] [] 0 0 ⟨TokenType.RightBracket, [], 0, 0⟩
     [] (by decide)⟩

/-- C7: every Identifier token is emitted double-quoted with its text
unchanged and no internal escaping; a single-quoted string is tokenized
as an ordinary String token (hence re-emitted double-quoted); and
cleaning `{name: 'alice', age: 30}` yields `{"name":"alice","age":30}`. -/
theorem c7_identifier_quoting :
    (∀ (acc v : List Nat) (s e : Nat) (rest : List Token),
      reconstructAux acc (⟨TokenType.Identifier, v, s, e⟩ :: rest)
        = reconstructAux (acc ++ 34 :: (v ++ [34])) rest)
    ∧ (∀ (input : List Nat) (pos : Nat),
      skip_whitespace_and_comments input pos = pos →
      pos < input.length →
      input.getD pos 0 = 39 →
      ∃ v pend, nextToken input pos
        = Except.ok (some (⟨TokenType.String, v, pos, pend⟩, pend)))
    ∧ clean_dirty_json_internal (strBytes "\x7bname: \x27alice\x27, age: 30\x7d")
        = Except.ok (strBytes "\x7b\"name\":\"alice\",\"age\":30\x7d") := by
  refine ⟨?_, ?_, rfl⟩
  · intro acc v s e rest
    simp only [reconstructAux]
  · intro input pos hskip hlt hb
    have h : nextToken input pos = Except.ok (some
        (⟨TokenType.String,
          if (sliceB input (pos + 1)
              (scanStringEnd input 39 (input.length + 1) (pos + 1) false)).contains 92
          then processEscapes false (sliceB input (pos + 1)
              (scanStringEnd input 39 (input.length + 1) (pos + 1) false))
          else sliceB input (pos + 1)
              (scanStringEnd input 39 (input.length + 1) (pos + 1) false),
          pos,
          scanStringEnd input 39 (input.length + 1) (pos + 1) false + 1⟩,
         scanStringEnd input 39 (input.length + 1) (pos + 1) false + 1)) := by
      simp only [nextToken]
      rw [hskip, if_pos hlt, hb, if_pos (show (39 = 34 ∨ 39 = 39) by decide)]
    exact ⟨_, _, h⟩

/-- Witness for C7: a single-quoted string at position 0 of `'a'`
becomes a String token. -/
theorem c7_identifier_quoting_witness :
    ∃ v pend, nextToken (strBytes "\x27a\x27") 0
      = Except.ok (some (⟨TokenType.String, v, 0, pend⟩, pend)) :=
  c7_identifier_quoting.2.1 (strBytes "\x27a\x27") 0 (by decide) (by decide)
    (by decide)

/-- C8: in the two-stage extractor, a candidate closing quote at offset p
is escaped iff the maximal run of consecutive backslashes ending at p-1
has odd length, and the String token holds exactly the raw bytes
strictly between the opening quote and the first non-escaped matching
closer: if j is the first index entry after start_idx whose tag matches
the opening quote and whose backslash-run parity is even, extract_string
returns the slice between the two quote offsets and continues at j+1. -/
theorem c8_escape_parity (input : List Nat) (index : StructuralIndex)
    (start_idx j : Nat) (qt : StructType)
    (hmono : ∀ b, b < index.positions.length → ∀ a, a < b →
        index.positions.getD a 0 < index.positions.getD b 0)
    (hq : input.getD (index.positions.getD start_idx 0) 0 ≠ 92)
    (hij : start_idx < j) (hjlen : j < index.positions.length)
    (hmatch : index.types.getD j StructType.BraceOpen = qt)
    (heven : maxBackslashRun input (index.positions.getD j 0 - 1) % 2 = 0)
    (hfirst : ∀ k, k < j → start_idx < k →
      ¬(index.types.getD k StructType.BraceOpen = qt ∧
        maxBackslashRun input (index.positions.getD k 0 - 1) % 2 = 0)) :
    extract_string input index start_idx qt
      = Except.ok (⟨TokenType.String,
          sliceB input (index.positions.getD start_idx 0 + 1)
            (index.positions.getD j 0),
          index.positions.getD start_idx 0,
          index.positions.getD j 0 + 1⟩, j + 1) := by
  unfold extract_string
  exact extractStringLoop_finds input index start_idx qt j hmono hq hjlen hmatch
    heven (index.len + 1) (start_idx + 1) false (by omega) (by omega)
    (by have h : index.len = index.positions.length := rfl; omega)
    (fun k hk hik => hfirst k hk (by omega))
    (fun _ => rfl)

/-- Witness for C8: in `"a\"b"` the index entry at offset 3 (preceded by
one backslash, odd parity) is skipped as escaped, and the closer at
offset 5 (parity zero) ends the token, which holds the raw bytes
`a\"b`. -/
theorem c8_escape_parity_witness :
    extract_string [34, 97, 92, 34, 98, 34] ⟨[0, 3, 5],
        [StructType.Quote, StructType.Quote, StructType.Quote]⟩ 0 StructType.Quote
      = Except.ok (⟨TokenType.String, [97, 92, 34, 98], 0, 6⟩, 3) :=
  c8_escape_parity [34, 97, 92, 34, 98, 34]
    ⟨[0, 3, 5], [StructType.Quote, StructType.Quote, StructType.Quote]⟩ 0 2
    StructType.Quote (by decide) (by decide) (by decide) (by decide) (by decide)
    (by decide) (by decide)

/-- C9 (amended): a byte outside the recognized token grammar at a token
start makes the single-pass tokenizer abort immediately with an
"Unexpected character" error carrying that byte's position (and hence
clean returns that error with no output); but (contrary to the original
claim) the two-stage extractor has no such error: an unrecognized byte
inside a gap simply contributes no token, so cleanAccelerated returns Ok
(see the counterexample). -/
theorem c9_unexpected_char_amended :
    (∀ (input : List Nat) (pos b : Nat),
      skip_whitespace_and_comments input pos = pos →
      pos < input.length →
      input.getD pos 0 = b →
      ¬(b = 34 ∨ b = 39) →
      ¬(is_digit b = true ∨ b = 45 ∨ b = 43 ∨ b = 46) →
      ¬is_identifier_start b = true →
      structTokenType b = none →
      nextToken input pos
        = Except.error ⟨strBytes "Unexpected character: " ++ [b], pos⟩)
    ∧ clean_dirty_json_internal (strBytes "[@]")
        = Except.error ⟨strBytes "Unexpected character: " ++ [64], 1⟩ := by
  refine ⟨?_, rfl⟩
  intro input pos b hskip hlt hb hq hnum hid hstruct
  exact nextToken_unexpected input pos b hskip hlt hb hq hnum hid hstruct

/-- Witness for C9: the byte `@` at position 1 of `[@]`. -/
theorem c9_unexpected_char_witness :
    nextToken (strBytes "[@]") 1
      = Except.error ⟨strBytes "Unexpected character: " ++ [64], 1⟩ :=
  c9_unexpected_char_amended.1 (strBytes "[@]") 1 64 (by decide) (by decide)
    (by decide) (by decide) (by decide) (by decide) (by decide)

/-- Counterexample for C9 as stated: the accelerated path on `[@]`
returns Ok `[]` instead of an UnexpectedCharacter error. -/
theorem c9_unexpected_char_counterexample :
    clean_dirty_json_simd (strBytes "[@]") = Except.ok (strBytes "[]") := rfl

/-- C10: a hex literal whose value exceeds u64::MAX keeps its raw `0x…`
text in both tokenizers (the conversion is silently skipped), and the
reconstructed output of the single-pass path contains the raw hex
literal verbatim with no error. -/
theorem c10_hex_overflow_passthrough :
    (∀ (input : List Nat) (pos : Nat) (ds : List Nat),
      skip_whitespace_and_comments input pos = pos →
      input.getD pos 0 = 48 →
      pos + 1 < input.length →
      input.getD (pos + 1) 0 = 120 →
      0 < ds.length →
      (∀ k, k < ds.length →
        pos + 2 + k < input.length ∧ input.getD (pos + 2 + k) 0 = ds.getD k 0 ∧
          is_ascii_hexdigit (ds.getD k 0) = true) →
      (input.length ≤ pos + 2 + ds.length ∨
        is_ascii_hexdigit (input.getD (pos + 2 + ds.length) 0) = false) →
      2 ^ 64 ≤ hexVal ds →
      nextToken input pos = Except.ok (some
        (⟨TokenType.Number, 48 :: 120 :: ds, pos, pos + 2 + ds.length⟩,
          pos + 2 + ds.length)))
    ∧ (∀ (input : List Nat) (start endPos p : Nat) (ds : List Nat),
      skip_whitespace_and_comments_range input start endPos = p →
      input.getD p 0 = 48 →
      p + 1 < endPos →
      input.getD (p + 1) 0 = 120 →
      0 < ds.length →
      (∀ k, k < ds.length →
        p + 2 + k < endPos ∧ input.getD (p + 2 + k) 0 = ds.getD k 0 ∧
          is_ascii_hexdigit (ds.getD k 0) = true) →
      (endPos ≤ p + 2 + ds.length ∨
        is_ascii_hexdigit (input.getD (p + 2 + ds.length) 0) = false) →
      2 ^ 64 ≤ hexVal ds →
      extract_value_tokens input start endPos = Except.ok
        [⟨TokenType.Number, 48 :: 120 :: ds, start, p + 2 + ds.length⟩])
    ∧ clean_dirty_json_internal (strBytes "\x7b\"a\": 0x10000000000000000\x7d")
        = Except.ok (strBytes "\x7b\"a\":0x10000000000000000\x7d") := by
  refine ⟨?_, ?_, rfl⟩
  · intro input pos ds hskip h0 h1lt hx hlen hds hterm hbig
    have h := nextToken_hex input pos ds hskip h0 h1lt hx hlen hds hterm
    rw [if_neg (by omega)] at h
    exact h
  · intro input start endPos p ds hskip h0 h1lt hx hlen hds hterm hbig
    have h := evt_hex input start endPos p ds hskip h0 h1lt hx hlen hds hterm
    rw [if_neg (by omega)] at h
    exact h

/-- Witness for C10: both tokenizers at the concrete overflowing literal
`0x10000000000000000` (value 2^64). -/
theorem c10_hex_overflow_passthrough_witness :
    nextToken (strBytes "0x10000000000000000") 0 = Except.ok (some
      (⟨TokenType.Number, 48 :: 120 :: strBytes "10000000000000000", 0, 19⟩, 19))
    ∧ extract_value_tokens (strBytes "0x10000000000000000") 0 19 = Except.ok
      [⟨TokenType.Number, 48 :: 120 :: strBytes "10000000000000000", 0, 19⟩] :=
  ⟨c10_hex_overflow_passthrough.1 (strBytes "0x10000000000000000") 0
      (strBytes "10000000000000000") (by decide) (by decide) (by decide)
      (by decide) (by decide) (by decide) (by decide) (by decide),
   c10_hex_overflow_passthrough.2.1 (strBytes "0x10000000000000000") 0 19 0
      (strBytes "10000000000000000") (by decide) (by decide) (by decide)
      (by decide) (by decide) (by decide) (by decide) (by decide)⟩

end Molt
